import Mathlib

/-!
# Verification of the MongoDB dump orchestration script (`dumpByString.py`)

Shallow embedding of the script's core logic:

* the Python string primitives it relies on (`str.strip`, `str.split`,
  `str.splitlines`, `os.path.splitext`, `str.endswith`), modelled over
  `List Char`;
* the selection-file parser of `main` (lines 126-132);
* the command construction and control flow of `dump_database`
  (lines 12-59), including the mirror walk (lines 42-51);
* the run-level sequencing of `main` (lines 109-138), as an event trace.

External effects (directory creation, process spawning, the walk) are
represented as explicit events or oracles; dump-process failure and
mirror-write failure are supplied as boolean oracles.  The trace model
assumes mirror writes succeed; mirror-write failures are modelled
separately by `mirrorWalkRun`.
-/

namespace DumpByString

/-! ## Python string primitives -/

/-- Characters removed by Python `str.strip()` with no argument. -/
def isPyWhitespace (c : Char) : Bool :=
  c == ' ' || c == '\t' || c == '\x0a' || c == '\x0d' || c == '\x0b' || c == '\x0c'

/-- Model of Python `str.strip()`: drop leading and trailing whitespace
(note that this includes tab and newline characters). -/
def pyStrip (s : String) : String :=
  ⟨((s.data.dropWhile isPyWhitespace).reverse.dropWhile isPyWhitespace).reverse⟩

/-- Split a character list at every occurrence of `c`, keeping empty pieces,
as Python `str.split(sep)` does for a one-character separator.
The result is always a nonempty list of pieces. -/
def splitOnChar (c : Char) : List Char → List (List Char)
  | [] => [[]]
  | x :: xs =>
    match splitOnChar c xs with
    | [] => [[]]
    | y :: ys => if x == c then [] :: y :: ys else (x :: y) :: ys

/-- Model of `line.split("\t")` (line 129 of the script). -/
def pySplitTab (l : String) : List String :=
  (splitOnChar '\t' l.data).map fun cs => (⟨cs⟩ : String)

/-- Model of Python `str.splitlines()` restricted to `\n` line terminators:
split at every newline and drop the trailing empty piece (so the empty
string yields no lines, and a trailing newline adds no extra line). -/
def pySplitlines (s : String) : List String :=
  let parts := (splitOnChar '\x0a' s.data).map fun cs => (⟨cs⟩ : String)
  if parts.getLast? == some "" then parts.dropLast else parts

/-- Model of Python `s.endswith(suffix)`. -/
def pyEndsWith (s suffix : String) : Bool :=
  List.isSuffixOf suffix.data s.data

/-- The stem part of POSIX `os.path.splitext` applied to a basename:
if the basename, after its leading dots, still contains a dot, remove
everything from its last dot on; otherwise there is no extension and the
basename is returned whole. -/
def dropLastExt (base : List Char) : List Char :=
  if (base.dropWhile (· == '.')).any (· == '.') then
    ((base.reverse.dropWhile (fun c => !(c == '.'))).drop 1).reverse
  else base

/-- Model of `os.path.splitext(p)[0]`: split `p` into directory part and
basename at the last `/`, and strip the basename's last extension. -/
def pySplitextRoot (p : String) : String :=
  let revCs := p.data.reverse
  let base := (revCs.takeWhile (fun c => !(c == '/'))).reverse
  let dir := (revCs.dropWhile (fun c => !(c == '/'))).reverse
  ⟨dir ++ dropLastExt base⟩

/-- Model of `os.path.join` for the relative second components the script
uses (never absolute, never empty). -/
def pathJoin (a b : String) : String := a ++ "/" ++ b

/-! ## Selection-file parsing (`main`, lines 126-132)

The script iterates over `dbs_and_collections_string.strip().splitlines()`,
skips empty lines, unpacks `line.split("\t")` into exactly two variables
(raising `ValueError` otherwise, which is uncaught and kills the process),
and appends the collection to `collections_dict[db_name]`.  The insertion-
ordered Python dict is modelled as an association list. -/

/-- Model of `collections_dict[db_name].append(collection)`, creating the key
on first sight (Python dicts preserve insertion order). -/
def addEntry : List (String × List String) → String → String → List (String × List String)
  | [], dbName, c => [(dbName, [c])]
  | (d, cs) :: rest, dbName, c =>
    if d == dbName then (d, cs ++ [c]) :: rest
    else (d, cs) :: addEntry rest dbName c

/-- The parsing loop: a line whose tab-split does not have exactly two parts
makes the unpacking `db_name, collection = line.split("\t")` raise, which
the script does not catch; this is modelled as `Except.error line`. -/
def parseLines : List String → List (String × List String) →
    Except String (List (String × List String))
  | [], acc => .ok acc
  | l :: rest, acc =>
    if l == "" then parseLines rest acc
    else
      match pySplitTab l with
      | [dbName, c] => parseLines rest (addEntry acc dbName c)
      | _ => .error l

/-- Target resolution: parse the raw selection text exactly as lines 126-132
do, including the initial whole-text `strip()`. -/
def parseSelection (s : String) : Except String (List (String × List String)) :=
  parseLines (pySplitlines (pyStrip s)) []

/-! ## Dump command construction (`dump_database`, lines 18-38)

When `collections` is empty the script builds one whole-database command.
Otherwise the `for collection in collections` loop rebinds the variable
`command` once per collection — but the sole `subprocess.run(command)` call
sits *after* the loop, so only the final binding (the last collection) is
ever executed. -/

/-- One `mongodump` invocation: the argument vector
`[mongodump_path, "--uri", uri, "--db", db, ("--collection", c)?, "--out", out]`
as a record. -/
structure DumpCommand where
  mongodumpPath : String
  uri : String
  db : String
  collection : Option String
  out : String
deriving DecidableEq, Repr

/-- The value of the variable `command` at the `subprocess.run` call on
line 38: the whole-database command when `collections` is empty, otherwise
the command built by the *last* iteration of the loop on lines 28-35. -/
def finalCommand (dbName : String) (collections : List String)
    (mongoUri mongodumpPath outputDir : String) : DumpCommand :=
  match collections.getLast? with
  | none => ⟨mongodumpPath, mongoUri, dbName, none, outputDir⟩
  | some c => ⟨mongodumpPath, mongoUri, dbName, some c, outputDir⟩

/-! ## Mirror synthesis (`dump_database`, lines 42-51)

`os.walk(db_output_dir)` enumerates every regular file under the output
root; files whose name ends in `.metadata.json` are copied (`shutil.copy2`,
preserving content and filesystem attributes) to the same relative path
under the mirror root, and a file at `os.path.splitext(dst)[0] + ".bson"`
is written with `bson.dumps({})`, the 5-byte canonical empty BSON document.
Any exception during the walk reaches the `except` clauses on lines 53-58,
which call `exit(1)`. -/

/-- A regular file found under the output root: path relative to the output
root, byte content, and filesystem attributes (`stat` data, opaque). -/
structure SrcFile where
  relPath : String
  content : List Nat
  attrs : Nat
deriving DecidableEq, Repr

/-- One file written under the mirror root: relative path, byte content, and
the preserved attributes when the write is a `shutil.copy2` (`none` for a
plain `open(..., "wb")` write, which preserves nothing). -/
structure MirrorWrite where
  relPath : String
  content : List Nat
  copiedAttrs : Option Nat
deriving DecidableEq, Repr

/-- The bytes of `bson.dumps` applied to an empty dictionary: the canonical
empty BSON document (4-byte little-endian total length 5, then the
terminating zero). -/
def bsonEmptyDoc : List Nat := [5, 0, 0, 0, 0]

/-- Line 44: the walk's filter `file.endswith(".metadata.json")` (testing the
relative path is equivalent: the suffix contains no `/`). -/
def isMetadataFile (relPath : String) : Bool :=
  pyEndsWith relPath ".metadata.json"

/-- Line 48: the `shutil.copy2` of the metadata file to the identical
relative path under the mirror root. -/
def copyWriteOf (f : SrcFile) : MirrorWrite :=
  ⟨f.relPath, f.content, some f.attrs⟩

/-- Line 49: `os.path.splitext(dst_path)[0] + ".bson"`, expressed on the
path relative to the mirror root. -/
def dataPathOf (relPath : String) : String :=
  pySplitextRoot relPath ++ ".bson"

/-- Lines 50-51: the synthetic data file, always the empty BSON document. -/
def dataWriteOf (f : SrcFile) : MirrorWrite :=
  ⟨dataPathOf f.relPath, bsonEmptyDoc, none⟩

/-- The mirror walk over the (flattened, walk-ordered) list of regular files
under the output root, with a failure oracle for the synthetic-data write
(line 50-51).  Returns the writes performed and `false` if an exception
aborted the walk: on the first failing data write the metadata half has
already been copied, and — because the exception propagates to the
`except ... exit(1)` clauses — no later file is processed. -/
def mirrorWalkRun (writeFails : String → Bool) :
    List SrcFile → List MirrorWrite × Bool
  | [] => ([], true)
  | f :: rest =>
    if isMetadataFile f.relPath then
      if writeFails (dataPathOf f.relPath) then ([copyWriteOf f], false)
      else
        let r := mirrorWalkRun writeFails rest
        (copyWriteOf f :: dataWriteOf f :: r.1, r.2)
    else mirrorWalkRun writeFails rest

/-- The mirror walk when every write succeeds. -/
def mirrorWalk (files : List SrcFile) : List MirrorWrite :=
  (mirrorWalkRun (fun _ => false) files).1

/-! ## Run-level control flow (`main` and `dump_database`) as an event trace -/

/-- Observable side effects of a run, in program order. -/
inductive Event where
  | mkdirs (path : String)
  | dumpCmd (cmd : DumpCommand)
  | mirrorWalkOver (outputRoot mirrorRoot : String)
  | exitFail
deriving DecidableEq, Repr

/-- Trace of one `dump_database` call (lines 12-59): the two `os.makedirs`
calls, the single `subprocess.run` of `finalCommand`, then — on success —
the mirror walk of the whole output root, or — on non-zero exit — `exit(1)`.
The returned flag is `false` when the call terminated the process.
(The trace model assumes the mirror writes themselves succeed; their
failures are modelled by `mirrorWalkRun`.) -/
def dumpDatabaseEvents (dbName : String) (collections : List String)
    (mongoUri outputDir mongodumpPath mirrorDir : String)
    (fails : DumpCommand → Bool) : List Event × Bool :=
  let cmd := finalCommand dbName collections mongoUri mongodumpPath outputDir
  (Event.mkdirs outputDir :: Event.mkdirs mirrorDir :: Event.dumpCmd cmd ::
      (if fails cmd then [Event.exitFail]
       else [Event.mirrorWalkOver outputDir mirrorDir]),
    !(fails cmd))

/-- The loop on lines 137-138: `dump_database` per resolved target, in
resolution order; a failed call has already terminated the process, so
nothing follows it. -/
def runTargets (mongoUri outputRoot mirrorRoot mongodumpPath : String)
    (fails : DumpCommand → Bool) : List (String × List String) → List Event
  | [] => []
  | (dbName, cs) :: rest =>
    let r := dumpDatabaseEvents dbName cs mongoUri outputRoot mongodumpPath
        mirrorRoot fails
    r.1 ++ (if r.2 then
              runTargets mongoUri outputRoot mirrorRoot mongodumpPath fails rest
            else [])

/-- Line 119: `os.path.join(OUTPUT_DIR, f"mongodump_{DATE}")`. -/
def outputRootDir (outputDir date : String) : String :=
  pathJoin outputDir ("mongodump_" ++ date)

/-- Line 120: `os.path.join(OUTPUT_DIR, f"mongodump_{DATE}_mirror")`. -/
def mirrorRootDir (outputDir date : String) : String :=
  pathJoin outputDir ("mongodump_" ++ date ++ "_mirror")

/-- Trace of `main` from line 118 on: create both run roots (lines 121-122),
then parse the selection text (lines 126-132; an unpacking error is an
uncaught exception, i.e. a non-zero exit with no dump performed), then run
the per-target loop. -/
def mainRun (dbsText mongoUri outputDir date mongodumpPath : String)
    (fails : DumpCommand → Bool) : List Event :=
  let outRoot := outputRootDir outputDir date
  let mirRoot := mirrorRootDir outputDir date
  Event.mkdirs outRoot :: Event.mkdirs mirRoot ::
    (match parseSelection dbsText with
     | Except.error _ => [Event.exitFail]
     | Except.ok ts => runTargets mongoUri outRoot mirRoot mongodumpPath fails ts)

/-- Line 91: `f"mongodb://{MONGO_USER}:{MONGO_PASSWORD}@{MONGO_HOST}"`. -/
def mongoUriFromConfig (user password host : String) : String :=
  "mongodb://" ++ user ++ ":" ++ password ++ "@" ++ host

/-- Lines 83-91: the structured-config credential path; building the URI is
guarded by the truthiness check `all([MONGO_HOST, MONGO_USER,
MONGO_PASSWORD, OUTPUT_DIR])` (an empty field exits before any URI is
built). -/
def configResolve (host user password outputDir : String) : Except String String :=
  if host != "" && user != "" && password != "" && outputDir != "" then
    .ok (mongoUriFromConfig user password host)
  else .error "config"

/-- The dump commands actually executed in a trace, in order. -/
def dumpCmdsOf : List Event → List DumpCommand
  | [] => []
  | Event.dumpCmd c :: rest => c :: dumpCmdsOf rest
  | _ :: rest => dumpCmdsOf rest

/-- Number of mirror-walk invocations in a trace. -/
def countMirrorWalks : List Event → Nat
  | [] => 0
  | Event.mirrorWalkOver _ _ :: rest => countMirrorWalks rest + 1
  | _ :: rest => countMirrorWalks rest

/-- Whether the first `exitFail` of the trace, if any, is its last event
(nothing is attempted after a process-terminating failure). -/
def exitFailLast : List Event → Bool
  | [] => true
  | Event.exitFail :: rest => rest.isEmpty
  | _ :: rest => exitFailLast rest

/-! ## Helper lemmas -/

/-- No character of the reversed metadata suffix is a path separator. -/
theorem metadataSuffixRev_no_slash :
    ∀ a ∈ (".metadata.json".data).reverse, (!(a == '/')) = true := by decide

/-- Stripping the last extension of a name ending in `.metadata.json` removes
exactly the final `.json` part. -/
theorem dropLastExt_metadata (y : List Char) :
    dropLastExt (y ++ ".metadata.json".data) = y ++ ".metadata".data := by
  have hany : ((y ++ ".metadata.json".data).dropWhile (· == '.')).any (· == '.') = true := by
    rw [List.dropWhile_append]
    split
    · decide
    · rw [List.any_append]
      have h2 : (".metadata.json".data).any (· == '.') = true := by decide
      rw [h2, Bool.or_true]
  have hd : List.dropWhile (fun c => !(c == '.')) ((".metadata.json".data).reverse) =
      '.' :: "atadatem.".data := by decide
  have htail : ("atadatem.".data).reverse = ".metadata".data := by decide
  unfold dropLastExt
  rw [if_pos hany, List.reverse_append, List.dropWhile_append, hd]
  simp only [List.isEmpty_cons, Bool.false_eq_true, if_false, List.cons_append,
    List.drop_succ_cons, List.drop_zero, List.reverse_append, List.reverse_reverse, htail]
  simp

/-- Applying the model of `os.path.splitext(p)[0]` to a path ending in
`.metadata.json` strips exactly the final `.json`. -/
theorem splitextRoot_metadata (x : String) :
    pySplitextRoot (x ++ ".metadata.json") = x ++ ".metadata" := by
  apply String.ext
  show ((x ++ ".metadata.json").data.reverse.dropWhile (fun c => !(c == '/'))).reverse ++
      dropLastExt (((x ++ ".metadata.json").data.reverse.takeWhile
        (fun c => !(c == '/'))).reverse) = (x ++ ".metadata").data
  rw [String.data_append, String.data_append, List.reverse_append,
    List.dropWhile_append_of_pos metadataSuffixRev_no_slash,
    List.takeWhile_append_of_pos metadataSuffixRev_no_slash,
    List.reverse_append, List.reverse_reverse, dropLastExt_metadata,
    ← List.append_assoc, ← List.reverse_append, List.takeWhile_append_dropWhile,
    List.reverse_reverse]

/-- A path of the form `x ++ ".metadata.json"` passes the walk's filter. -/
theorem isMetadataFile_append (x : String) :
    isMetadataFile (x ++ ".metadata.json") = true := by
  simp only [isMetadataFile, pyEndsWith, String.data_append]
  exact List.isSuffixOf_iff_suffix.mpr (List.suffix_append _ _)

/-- Unfolding of the failure-free mirror walk on a cons cell. -/
theorem mirrorWalk_cons (f : SrcFile) (rest : List SrcFile) :
    mirrorWalk (f :: rest) =
      if isMetadataFile f.relPath then
        copyWriteOf f :: dataWriteOf f :: mirrorWalk rest
      else mirrorWalk rest := by
  simp only [mirrorWalk, mirrorWalkRun]
  split <;> simp

/-- A discovered metadata file's copy and the paired synthetic data write
both occur in the failure-free mirror walk. -/
theorem mirrorPair_mem (files : List SrcFile) (f : SrcFile) (hf : f ∈ files)
    (hm : isMetadataFile f.relPath = true) :
    copyWriteOf f ∈ mirrorWalk files ∧ dataWriteOf f ∈ mirrorWalk files := by
  induction files with
  | nil => cases hf
  | cons g rest ih =>
    rw [mirrorWalk_cons]
    rcases List.mem_cons.mp hf with h | hmem
    · subst h
      rw [if_pos hm]
      exact ⟨List.mem_cons_self _ _, List.mem_cons_of_mem _ (List.mem_cons_self _ _)⟩
    · rcases ih hmem with ⟨h1, h2⟩
      split
      · exact ⟨List.mem_cons_of_mem _ (List.mem_cons_of_mem _ h1),
          List.mem_cons_of_mem _ (List.mem_cons_of_mem _ h2)⟩
      · exact ⟨h1, h2⟩

/-- Splitting never yields an empty list of pieces. -/
theorem splitOnChar_ne_nil (c : Char) (l : List Char) : splitOnChar c l ≠ [] := by
  cases l with
  | nil => simp [splitOnChar]
  | cons x xs =>
    simp only [splitOnChar]
    split
    · simp
    · split <;> simp

/-- Splitting on a character yields one more piece than there are
occurrences of that character. -/
theorem splitOnChar_length (c : Char) (l : List Char) :
    (splitOnChar c l).length = l.count c + 1 := by
  induction l with
  | nil => rfl
  | cons x xs ih =>
    rcases h : splitOnChar c xs with _ | ⟨y, ys⟩
    · exact absurd h (splitOnChar_ne_nil c xs)
    · have hgoal : splitOnChar c (x :: xs) =
          if x == c then [] :: y :: ys else (x :: y) :: ys := by
        simp only [splitOnChar, h]
      rw [hgoal]
      rw [h] at ih
      simp only [List.length_cons] at ih
      by_cases hx : x = c
      · subst hx
        rw [if_pos (by simp), List.count_cons_self]
        simp only [List.length_cons]
        omega
      · rw [if_neg (by simpa using hx), List.count_cons_of_ne (Ne.symm hx)]
        simp only [List.length_cons]
        omega

/-- The number of pieces of the tab split is the tab count plus one. -/
theorem pySplitTab_length (l : String) :
    (pySplitTab l).length = l.data.count '\t' + 1 := by
  simp [pySplitTab, splitOnChar_length]

/-- Appending a collection preserves nonemptiness of every entry's
collection list. -/
theorem addEntry_nonempty (acc : List (String × List String)) (dbName c : String)
    (h : ∀ t ∈ acc, t.2 ≠ []) : ∀ t ∈ addEntry acc dbName c, t.2 ≠ [] := by
  induction acc with
  | nil =>
    intro t ht
    simp only [addEntry, List.mem_singleton] at ht
    subst ht
    simp
  | cons hd tl ih =>
    obtain ⟨d, cs⟩ := hd
    intro t ht
    simp only [addEntry] at ht
    split at ht
    · rcases List.mem_cons.mp ht with h1 | h1
      · subst h1; simp
      · exact h t (List.mem_cons_of_mem _ h1)
    · rcases List.mem_cons.mp ht with h1 | h1
      · subst h1
        exact h (d, cs) (List.mem_cons_self _ _)
      · exact ih (fun u hu => h u (List.mem_cons_of_mem _ hu)) t h1

/-- Every entry accumulated by the parsing loop has a nonempty collection
list: each accepted line appends exactly one collection string. -/
theorem parseLines_nonempty (ls : List String) :
    ∀ acc ts : List (String × List String), (∀ t ∈ acc, t.2 ≠ []) →
      parseLines ls acc = .ok ts → ∀ t ∈ ts, t.2 ≠ [] := by
  induction ls with
  | nil =>
    intro acc ts hacc h
    simp only [parseLines] at h
    cases h
    exact hacc
  | cons l rest ih =>
    intro acc ts hacc h
    simp only [parseLines] at h
    split at h
    · exact ih acc ts hacc h
    · split at h
      · exact ih _ ts (addEntry_nonempty acc _ _ hacc) h
      · cases h

/-- If the parsing loop succeeds, every nonempty line it consumed split into
exactly two tab-separated parts. -/
theorem parseLines_ok_lines (ls : List String) :
    ∀ acc ts : List (String × List String), parseLines ls acc = .ok ts →
      ∀ l ∈ ls, l ≠ "" → (pySplitTab l).length = 2 := by
  induction ls with
  | nil => intro acc ts _ l hl; cases hl
  | cons l0 rest ih =>
    intro acc ts h l hl hne
    simp only [parseLines] at h
    rcases List.mem_cons.mp hl with h1 | h1
    · subst h1
      split at h
      · rename_i he
        exact absurd (by simpa using he) hne
      · split at h
        · rename_i dbName c hsplit
          rw [hsplit]
          rfl
        · cases h
    · split at h
      · exact ih acc ts h l h1 hne
      · split at h
        · exact ih _ ts h l h1 hne
        · cases h

/-- The URI field of the executed command is always the URI that was passed
in, whatever the collection list. -/
theorem finalCommand_uri (dbName : String) (collections : List String)
    (mongoUri mongodumpPath outputDir : String) :
    (finalCommand dbName collections mongoUri mongodumpPath outputDir).uri = mongoUri := by
  unfold finalCommand
  cases collections.getLast? <;> rfl

/-- With an empty collection list the executed command is the whole-database
command: no collection argument. -/
theorem finalCommand_nil (dbName mongoUri mongodumpPath outputDir : String) :
    finalCommand dbName [] mongoUri mongodumpPath outputDir =
      ⟨mongodumpPath, mongoUri, dbName, none, outputDir⟩ := rfl

/-- Every dump command appearing in the per-target loop's trace carries the
URI that was passed in. -/
theorem runTargets_dumpCmd_uri (mongoUri outRoot mirRoot mongodumpPath : String)
    (fails : DumpCommand → Bool) (ts : List (String × List String))
    (cmd : DumpCommand)
    (h : Event.dumpCmd cmd ∈ runTargets mongoUri outRoot mirRoot mongodumpPath fails ts) :
    cmd.uri = mongoUri := by
  induction ts with
  | nil => cases h
  | cons t rest ih =>
    obtain ⟨dbName, cs⟩ := t
    simp only [runTargets, dumpDatabaseEvents, List.mem_append, List.mem_cons] at h
    rcases h with (h | h | h | h) | h
    · cases h
    · cases h
    · have hc : cmd = finalCommand dbName cs mongoUri mongodumpPath outRoot := by
        injection h
      rw [hc, finalCommand_uri]
    · split at h <;> simp at h
    · split at h
      · exact ih h
      · cases h

/-- The first process-terminating failure in the per-target loop is the last
event of its trace. -/
theorem exitFailLast_runTargets (mongoUri outRoot mirRoot mongodumpPath : String)
    (fails : DumpCommand → Bool) (ts : List (String × List String)) :
    exitFailLast (runTargets mongoUri outRoot mirRoot mongodumpPath fails ts) = true := by
  induction ts with
  | nil => rfl
  | cons t rest ih =>
    obtain ⟨dbName, cs⟩ := t
    simp only [runTargets, dumpDatabaseEvents]
    by_cases hf : fails (finalCommand dbName cs mongoUri mongodumpPath outRoot) = true
    · simp [exitFailLast, hf]
    · simp [exitFailLast, hf, ih]

/-- With no dump failure the loop walks the mirror once per target. -/
theorem countMirrorWalks_runTargets (mongoUri outRoot mirRoot mongodumpPath : String)
    (ts : List (String × List String)) :
    countMirrorWalks
        (runTargets mongoUri outRoot mirRoot mongodumpPath (fun _ => false) ts) =
      ts.length := by
  induction ts with
  | nil => rfl
  | cons t rest ih =>
    obtain ⟨dbName, cs⟩ := t
    simp [runTargets, dumpDatabaseEvents, countMirrorWalks, ih]

/-! ## Claims -/

/-- C1: the claim states that a Target with K explicit collections yields K
dump invocations, one per collection in input order.  In the code the
`for collection in collections` loop only rebinds the variable `command`;
the sole `subprocess.run(command)` sits after the loop, so for the target
`sales` with collections `[orders, invoices]` exactly one dump command is
executed, and it names only the last collection `invoices` — not two
commands in input order. -/
theorem C1_only_last_collection_dumped :
    dumpCmdsOf (dumpDatabaseEvents "sales" ["orders", "invoices"] "mongodb://u:p@h"
        "out/mongodump_20240101_120000" "mongo_tools/bin/mongodump"
        "out/mongodump_20240101_120000_mirror" (fun _ => false)).1 =
      [⟨"mongo_tools/bin/mongodump", "mongodb://u:p@h", "sales", some "invoices",
        "out/mongodump_20240101_120000"⟩] ∧
    (dumpCmdsOf (dumpDatabaseEvents "sales" ["orders", "invoices"] "mongodb://u:p@h"
        "out/mongodump_20240101_120000" "mongo_tools/bin/mongodump"
        "out/mongodump_20240101_120000_mirror" (fun _ => false)).1).length ≠ 2 := by
  decide

/-- C2 fails as stated: for the metadata file `db1/orders.metadata.json` the
synthetic data file is written at `db1/orders.metadata.bson` — the code's
`os.path.splitext` replaces only the final `.json` — and no file is written
at the dump format's sidecar data name `db1/orders.bson`. -/
theorem C2_counterexample :
    mirrorWalk [⟨"db1/orders.metadata.json", [1, 2, 3], 7⟩] =
      [⟨"db1/orders.metadata.json", [1, 2, 3], some 7⟩,
       ⟨"db1/orders.metadata.bson", [5, 0, 0, 0, 0], none⟩] ∧
    ((mirrorWalk [⟨"db1/orders.metadata.json", [1, 2, 3], 7⟩]).all
      (fun w => w.relPath != "db1/orders.bson")) = true := by
  decide

/-- C2 (amended): every discovered metadata sidecar file is mirrored with a
byte-identical, attribute-preserving copy at the identical relative path,
and a sibling synthetic data file whose content is exactly the canonical
empty BSON document, regardless of the real data file's content or
existence — but the data file's name replaces only the final `.json`
extension by `.bson`, yielding a name ending in `.metadata.bson`, not the
sidecar base name with the whole metadata extension replaced. -/
theorem C2_amended_mirror_pair (files : List SrcFile) (f : SrcFile) (x : String)
    (hf : f ∈ files) (hx : f.relPath = x ++ ".metadata.json") :
    copyWriteOf f ∈ mirrorWalk files ∧
    dataWriteOf f ∈ mirrorWalk files ∧
    copyWriteOf f = ⟨f.relPath, f.content, some f.attrs⟩ ∧
    dataWriteOf f = ⟨x ++ ".metadata.bson", bsonEmptyDoc, none⟩ := by
  have hmeta : isMetadataFile f.relPath = true := by
    rw [hx]; exact isMetadataFile_append x
  obtain ⟨h1, h2⟩ := mirrorPair_mem files f hf hmeta
  have hpath : pySplitextRoot f.relPath ++ ".bson" = x ++ ".metadata.bson" := by
    rw [hx, splitextRoot_metadata, String.append_assoc]
    have hb : (".metadata" ++ ".bson" : String) = ".metadata.bson" := by decide
    rw [hb]
  refine ⟨h1, h2, rfl, ?_⟩
  unfold dataWriteOf dataPathOf
  rw [hpath]

/-- Witness for C2 (amended) at a concrete one-file tree. -/
theorem C2_amended_witness :
    (⟨"db1/orders.metadata.json", [1, 2, 3], 7⟩ : SrcFile) ∈
      [(⟨"db1/orders.metadata.json", [1, 2, 3], 7⟩ : SrcFile)] ∧
    (⟨"db1/orders.metadata.json", [1, 2, 3], 7⟩ : SrcFile).relPath =
      "db1/orders" ++ ".metadata.json" ∧
    copyWriteOf ⟨"db1/orders.metadata.json", [1, 2, 3], 7⟩ ∈
      mirrorWalk [⟨"db1/orders.metadata.json", [1, 2, 3], 7⟩] ∧
    dataWriteOf ⟨"db1/orders.metadata.json", [1, 2, 3], 7⟩ ∈
      mirrorWalk [⟨"db1/orders.metadata.json", [1, 2, 3], 7⟩] ∧
    dataWriteOf ⟨"db1/orders.metadata.json", [1, 2, 3], 7⟩ =
      ⟨"db1/orders" ++ ".metadata.bson", bsonEmptyDoc, none⟩ :=
  ⟨by decide, by decide,
    (C2_amended_mirror_pair [⟨"db1/orders.metadata.json", [1, 2, 3], 7⟩]
      ⟨"db1/orders.metadata.json", [1, 2, 3], 7⟩ "db1/orders"
      (by decide) (by decide)).1,
    (C2_amended_mirror_pair [⟨"db1/orders.metadata.json", [1, 2, 3], 7⟩]
      ⟨"db1/orders.metadata.json", [1, 2, 3], 7⟩ "db1/orders"
      (by decide) (by decide)).2.1,
    (C2_amended_mirror_pair [⟨"db1/orders.metadata.json", [1, 2, 3], 7⟩]
      ⟨"db1/orders.metadata.json", [1, 2, 3], 7⟩ "db1/orders"
      (by decide) (by decide)).2.2.2⟩

/-- C3 fails as stated: with two targets and no failures the walk of the
output root runs twice — once at the end of each target's `dump_database`
call, including between the two targets' dump invocations — not exactly
once per run. -/
theorem C3_counterexample :
    countMirrorWalks (mainRun "sales\torders\ninventory\tstock" "mongodb://u:p@h"
        "out" "20240101_120000" "mongo_tools/bin/mongodump" (fun _ => false)) = 2 ∧
    countMirrorWalks (mainRun "sales\torders\ninventory\tstock" "mongodb://u:p@h"
        "out" "20240101_120000" "mongo_tools/bin/mongodump" (fun _ => false)) ≠ 1 := by
  decide

/-- C3 (amended): the mirror walk is invoked once per successfully dumped
Target, immediately after that Target's single dump invocation and before
the next Target's dump, each walk covering the whole output root; a
failure-free run over K targets therefore walks the mirror K times. -/
theorem C3_amended_walk_per_target :
    (∀ (mongoUri outRoot mirRoot mongodumpPath : String)
        (ts : List (String × List String)),
        countMirrorWalks
            (runTargets mongoUri outRoot mirRoot mongodumpPath (fun _ => false) ts) =
          ts.length) ∧
    (∀ (mongoUri outRoot mirRoot mongodumpPath dbName : String) (cs : List String)
        (rest : List (String × List String)),
        runTargets mongoUri outRoot mirRoot mongodumpPath (fun _ => false)
            ((dbName, cs) :: rest) =
          Event.mkdirs outRoot :: Event.mkdirs mirRoot ::
            Event.dumpCmd (finalCommand dbName cs mongoUri mongodumpPath outRoot) ::
              Event.mirrorWalkOver outRoot mirRoot ::
                runTargets mongoUri outRoot mirRoot mongodumpPath (fun _ => false) rest) := by
  constructor
  · intro mongoUri outRoot mirRoot mongodumpPath ts
    exact countMirrorWalks_runTargets mongoUri outRoot mirRoot mongodumpPath ts
  · intro mongoUri outRoot mirRoot mongodumpPath dbName cs rest
    simp [runTargets, dumpDatabaseEvents]

/-- C4's embedded resolution fact fails: the spec's example selection file
(ending in the line `inventory` + tab) is rejected, because the whole-text
`strip()` removes the trailing tab and the last line then has no tab at
all; and the same line in mid-file position resolves to the target
`inventory` with the single empty-string collection `""`, not to an empty
collection set. -/
theorem C4_counterexample :
    parseSelection "sales\torders\nsales\tinvoices\ninventory\t" =
      Except.error "inventory" ∧
    parseSelection "inventory\t\nsales\torders" =
      Except.ok [("inventory", [""]), ("sales", ["orders"])] :=
  ⟨rfl, rfl⟩

/-- C4 (amended): for a Target whose collection list is empty,
`dump_database` executes exactly one whole-database dump command with no
collection argument, into the run output root — but the resolver never
produces such a Target: the line `inventory` + tab resolves to
`inventory -> [""]` mid-file and is a fatal parse error as the final line. -/
theorem C4_amended_whole_db_dump (dbName mongoUri outputDir mongodumpPath
    mirrorDir : String) (fails : DumpCommand → Bool) :
    dumpCmdsOf (dumpDatabaseEvents dbName [] mongoUri outputDir mongodumpPath
        mirrorDir fails).1 =
      [⟨mongodumpPath, mongoUri, dbName, none, outputDir⟩] := by
  simp only [dumpDatabaseEvents, finalCommand_nil]
  by_cases hf : fails ⟨mongodumpPath, mongoUri, dbName, none, outputDir⟩ = true <;>
    simp [hf, dumpCmdsOf]

/-- C5 fails as stated: with two metadata files where the first pair's data
write fails, the walk stops immediately — the exception reaches the
`except ... exit(1)` clauses — and the second discovered metadata file is
not mirrored at all, contradicting best-effort-continue. -/
theorem C5_counterexample :
    mirrorWalkRun (fun p => p == "a.metadata.bson")
        [⟨"a.metadata.json", [1], 0⟩, ⟨"b.metadata.json", [2], 0⟩] =
      ([⟨"a.metadata.json", [1], some 0⟩], false) ∧
    ((mirrorWalkRun (fun p => p == "a.metadata.bson")
        [⟨"a.metadata.json", [1], 0⟩, ⟨"b.metadata.json", [2], 0⟩]).1.all
      (fun w => w.relPath != "b.metadata.json")) = true := by
  decide

/-- C5 (amended): a failure writing the synthetic data half of any pair
aborts the entire walk with a process exit: the failing pair keeps only its
metadata copy, and no later discovered metadata file is processed — the
same abort-on-first-failure policy as the dump loop, not best-effort. -/
theorem C5_amended_data_write_failure_aborts (writeFails : String → Bool)
    (f : SrcFile) (rest : List SrcFile)
    (hmeta : isMetadataFile f.relPath = true)
    (hfail : writeFails (dataPathOf f.relPath) = true) :
    mirrorWalkRun writeFails (f :: rest) = ([copyWriteOf f], false) := by
  simp [mirrorWalkRun, hmeta, hfail]

/-- Witness for C5 (amended) at a concrete two-file walk. -/
theorem C5_amended_witness :
    isMetadataFile ("a.metadata.json" : String) = true ∧
    (fun p => p == "a.metadata.bson") (dataPathOf "a.metadata.json") = true ∧
    mirrorWalkRun (fun p => p == "a.metadata.bson")
        [⟨"a.metadata.json", [1], 0⟩, ⟨"b.metadata.json", [2], 0⟩] =
      ([copyWriteOf ⟨"a.metadata.json", [1], 0⟩], false) :=
  ⟨by decide, by decide,
    C5_amended_data_write_failure_aborts (fun p => p == "a.metadata.bson")
      ⟨"a.metadata.json", [1], 0⟩ [⟨"b.metadata.json", [2], 0⟩]
      (by decide) (by decide)⟩

/-- C6 fails as stated: when the second target's dump fails, the mirror
walk has already been invoked for the first, successful target — the claim
that the synthesizer is never invoked for a run containing a failed dump
does not hold. -/
theorem C6_counterexample :
    Event.mirrorWalkOver "out/mongodump_20240101_120000"
        "out/mongodump_20240101_120000_mirror" ∈
      mainRun "sales\torders\ninventory\tstock" "mongodb://u:p@h" "out"
        "20240101_120000" "mongo_tools/bin/mongodump"
        (fun c => c.db == "inventory") ∧
    Event.exitFail ∈
      mainRun "sales\torders\ninventory\tstock" "mongodb://u:p@h" "out"
        "20240101_120000" "mongo_tools/bin/mongodump"
        (fun c => c.db == "inventory") := by
  decide

/-- C6 (amended): a failed dump terminates the process at once — the first
failure exit is the last event of every run trace, so no later Target's
dump and no later mirror walk is attempted, and the failing Target's own
walk is skipped; but mirror walks already performed for earlier successful
Targets are not undone. -/
theorem C6_amended_failure_aborts :
    (∀ (s mongoUri outputDir date mongodumpPath : String)
        (fails : DumpCommand → Bool),
        exitFailLast (mainRun s mongoUri outputDir date mongodumpPath fails) = true) ∧
    (∀ (mongoUri outRoot mirRoot mongodumpPath dbName : String) (cs : List String)
        (fails : DumpCommand → Bool) (rest : List (String × List String)),
        fails (finalCommand dbName cs mongoUri mongodumpPath outRoot) = true →
        runTargets mongoUri outRoot mirRoot mongodumpPath fails ((dbName, cs) :: rest) =
          [Event.mkdirs outRoot, Event.mkdirs mirRoot,
           Event.dumpCmd (finalCommand dbName cs mongoUri mongodumpPath outRoot),
           Event.exitFail]) := by
  constructor
  · intro s mongoUri outputDir date mongodumpPath fails
    cases hps : parseSelection s with
    | error e => simp [mainRun, hps, exitFailLast]
    | ok ts =>
      simp [mainRun, hps, exitFailLast,
        exitFailLast_runTargets mongoUri (outputRootDir outputDir date)
          (mirrorRootDir outputDir date) mongodumpPath fails ts]
  · intro mongoUri outRoot mirRoot mongodumpPath dbName cs fails rest hf
    simp [runTargets, dumpDatabaseEvents, hf]

/-- Witness for C6 (amended) at a concrete failing target. -/
theorem C6_amended_witness :
    (fun c : DumpCommand => c.db == "inventory")
        (finalCommand "inventory" ["stock"] "u" "m" "or") = true ∧
    runTargets "u" "or" "mr" "m" (fun c => c.db == "inventory")
        [("inventory", ["stock"])] =
      [Event.mkdirs "or", Event.mkdirs "mr",
       Event.dumpCmd (finalCommand "inventory" ["stock"] "u" "m" "or"),
       Event.exitFail] :=
  ⟨by decide,
    C6_amended_failure_aborts.2 "u" "or" "mr" "m" "inventory" ["stock"]
      (fun c => c.db == "inventory") [] (by decide)⟩

/-- C7: a nonempty selection line whose tab count is not exactly one makes
target resolution fail — the unpacking of `line.split("\t")` raises, the
uncaught exception is a fatal non-zero exit — and no dump command appears
in the run's trace. -/
theorem C7_malformed_line_fatal (s l : String)
    (hl : l ∈ pySplitlines (pyStrip s)) (hne : l ≠ "")
    (htabs : l.data.count '\t' ≠ 1) :
    (∃ e, parseSelection s = .error e) ∧
    ∀ (mongoUri outputDir date mongodumpPath : String)
      (fails : DumpCommand → Bool) (cmd : DumpCommand),
      Event.dumpCmd cmd ∉ mainRun s mongoUri outputDir date mongodumpPath fails := by
  have hlen : (pySplitTab l).length ≠ 2 := by
    rw [pySplitTab_length]
    omega
  have herr : ∃ e, parseSelection s = .error e := by
    cases h : parseSelection s with
    | ok ts => exact absurd (parseLines_ok_lines _ _ _ h l hl hne) hlen
    | error e => exact ⟨e, rfl⟩
  refine ⟨herr, ?_⟩
  intro mongoUri outputDir date mongodumpPath fails cmd
  obtain ⟨e, he⟩ := herr
  simp [mainRun, he]

/-- Witness for C7 at the tabless selection line `sales-orders`. -/
theorem C7_witness :
    "sales-orders" ∈ pySplitlines (pyStrip "sales-orders") ∧
    "sales-orders" ≠ "" ∧
    "sales-orders".data.count '\t' ≠ 1 ∧
    parseSelection "sales-orders" = Except.error "sales-orders" ∧
    Event.dumpCmd ⟨"m", "u", "db1", none, "o"⟩ ∉
      mainRun "sales-orders" "u" "o" "d" "m" (fun _ => false) :=
  ⟨by decide, by decide, by decide, rfl,
    (C7_malformed_line_fatal "sales-orders" "sales-orders" (by decide) (by decide)
        (by decide)).2 "u" "o" "d" "m" (fun _ => false) ⟨"m", "u", "db1", none, "o"⟩⟩

/-- C8: in every run trace, any occurrence of a dump command is strictly
preceded by the creation of both the output root and the mirror root
(lines 121-122 run before the target loop of lines 137-138). -/
theorem C8_roots_before_first_dump (s mongoUri outputDir date mongodumpPath : String)
    (fails : DumpCommand → Bool) (pre post : List Event) (cmd : DumpCommand)
    (h : mainRun s mongoUri outputDir date mongodumpPath fails =
        pre ++ Event.dumpCmd cmd :: post) :
    Event.mkdirs (outputRootDir outputDir date) ∈ pre ∧
    Event.mkdirs (mirrorRootDir outputDir date) ∈ pre := by
  have hm : mainRun s mongoUri outputDir date mongodumpPath fails =
      Event.mkdirs (outputRootDir outputDir date) ::
        Event.mkdirs (mirrorRootDir outputDir date) ::
          (match parseSelection s with
           | Except.error _ => [Event.exitFail]
           | Except.ok ts =>
              runTargets mongoUri (outputRootDir outputDir date)
                (mirrorRootDir outputDir date) mongodumpPath fails ts) := rfl
  rw [hm] at h
  cases pre with
  | nil => simp at h
  | cons a pre1 =>
    cases pre1 with
    | nil => simp at h
    | cons b pre2 =>
      rw [List.cons_append, List.cons_append] at h
      injection h with h1 h2
      injection h2 with h2 h3
      rw [← h1, ← h2]
      exact ⟨List.mem_cons_self _ _,
        List.mem_cons_of_mem _ (List.mem_cons_self _ _)⟩

/-- Witness for C8 at a concrete one-target run. -/
theorem C8_witness :
    mainRun "sales\torders" "u" "o" "d" "m" (fun _ => false) =
      [Event.mkdirs "o/mongodump_d", Event.mkdirs "o/mongodump_d_mirror",
       Event.mkdirs "o/mongodump_d", Event.mkdirs "o/mongodump_d_mirror"] ++
        Event.dumpCmd ⟨"m", "u", "sales", some "orders", "o/mongodump_d"⟩ ::
          [Event.mirrorWalkOver "o/mongodump_d" "o/mongodump_d_mirror"] ∧
    Event.mkdirs (outputRootDir "o" "d") ∈
      [Event.mkdirs "o/mongodump_d", Event.mkdirs "o/mongodump_d_mirror",
       Event.mkdirs "o/mongodump_d", Event.mkdirs "o/mongodump_d_mirror"] ∧
    Event.mkdirs (mirrorRootDir "o" "d") ∈
      [Event.mkdirs "o/mongodump_d", Event.mkdirs "o/mongodump_d_mirror",
       Event.mkdirs "o/mongodump_d", Event.mkdirs "o/mongodump_d_mirror"] :=
  ⟨by decide,
    (C8_roots_before_first_dump "sales\torders" "u" "o" "d" "m" (fun _ => false)
      [Event.mkdirs "o/mongodump_d", Event.mkdirs "o/mongodump_d_mirror",
       Event.mkdirs "o/mongodump_d", Event.mkdirs "o/mongodump_d_mirror"]
      [Event.mirrorWalkOver "o/mongodump_d" "o/mongodump_d_mirror"]
      ⟨"m", "u", "sales", some "orders", "o/mongodump_d"⟩ (by decide)).1,
    (C8_roots_before_first_dump "sales\torders" "u" "o" "d" "m" (fun _ => false)
      [Event.mkdirs "o/mongodump_d", Event.mkdirs "o/mongodump_d_mirror",
       Event.mkdirs "o/mongodump_d", Event.mkdirs "o/mongodump_d_mirror"]
      [Event.mirrorWalkOver "o/mongodump_d" "o/mongodump_d_mirror"]
      ⟨"m", "u", "sales", some "orders", "o/mongodump_d"⟩ (by decide)).2⟩

/-- C9: every Target the resolver produces has a nonempty collection list —
each accepted line appends exactly one collection string, a line ending in
a tab appending the empty string — so the whole-database branch of
`dump_database` (a command with no collection argument) is unreachable for
resolver-produced Targets. -/
theorem C9_resolved_targets_nonempty (s : String)
    (ts : List (String × List String)) (h : parseSelection s = .ok ts)
    (t : String × List String) (ht : t ∈ ts) :
    t.2 ≠ [] ∧
    ∀ mongoUri mongodumpPath outputDir : String,
      (finalCommand t.1 t.2 mongoUri mongodumpPath outputDir).collection ≠ none := by
  have h2 : t.2 ≠ [] :=
    parseLines_nonempty _ _ _ (by intro u hu; cases hu) h t ht
  refine ⟨h2, ?_⟩
  intro mongoUri mongodumpPath outputDir
  unfold finalCommand
  cases hl : t.2.getLast? with
  | none => exact absurd (List.getLast?_eq_none_iff.mp hl) h2
  | some c => simp

/-- Witness for C9 at a one-line selection. -/
theorem C9_witness :
    parseSelection "db1\tcoll1" = Except.ok [("db1", ["coll1"])] ∧
    ("db1", ["coll1"]) ∈ [("db1", ["coll1"])] ∧
    ("db1", ["coll1"]).2 ≠ [] ∧
    (finalCommand "db1" ["coll1"] "u" "m" "o").collection ≠ none :=
  ⟨rfl, by decide,
    (C9_resolved_targets_nonempty "db1\tcoll1" [("db1", ["coll1"])] rfl
      ("db1", ["coll1"]) (by decide)).1,
    (C9_resolved_targets_nonempty "db1\tcoll1" [("db1", ["coll1"])] rfl
      ("db1", ["coll1"]) (by decide)).2 "u" "m" "o"⟩

/-- C10: when the structured config file supplies the credentials, the URI
carried by every dump command of the run is exactly the concatenation
`mongodb://` ++ user ++ `:` ++ password ++ `@` ++ host, with no
percent-encoding — reserved characters in user or password are embedded
verbatim. -/
theorem C10_config_uri_verbatim (host user password outputDirCfg uriStr : String)
    (hcfg : configResolve host user password outputDirCfg = .ok uriStr)
    (s outputDir date mongodumpPath : String) (fails : DumpCommand → Bool)
    (cmd : DumpCommand)
    (hmem : Event.dumpCmd cmd ∈ mainRun s uriStr outputDir date mongodumpPath fails) :
    cmd.uri = "mongodb://" ++ user ++ ":" ++ password ++ "@" ++ host := by
  have huri : uriStr = mongoUriFromConfig user password host := by
    unfold configResolve at hcfg
    split at hcfg
    · exact (Except.ok.inj hcfg).symm
    · cases hcfg
  subst huri
  cases hps : parseSelection s with
  | error e => simp [mainRun, hps] at hmem
  | ok ts =>
    simp only [mainRun, hps, List.mem_cons] at hmem
    rcases hmem with h | h | h
    · cases h
    · cases h
    · exact runTargets_dumpCmd_uri _ _ _ _ _ _ _ h

/-- Witness for C10 with reserved characters in user and password. -/
theorem C10_witness :
    configResolve "h" "u@x" "p:q" "odir" = Except.ok "mongodb://u@x:p:q@h" ∧
    Event.dumpCmd ⟨"m", "mongodb://u@x:p:q@h", "sales", some "orders",
        "odir/mongodump_d"⟩ ∈
      mainRun "sales\torders" "mongodb://u@x:p:q@h" "odir" "d" "m" (fun _ => false) ∧
    (⟨"m", "mongodb://u@x:p:q@h", "sales", some "orders",
        "odir/mongodump_d"⟩ : DumpCommand).uri =
      "mongodb://" ++ "u@x" ++ ":" ++ "p:q" ++ "@" ++ "h" :=
  ⟨rfl, by decide,
    C10_config_uri_verbatim "h" "u@x" "p:q" "odir" "mongodb://u@x:p:q@h" rfl
      "sales\torders" "odir" "d" "m" (fun _ => false)
      ⟨"m", "mongodb://u@x:p:q@h", "sales", some "orders", "odir/mongodump_d"⟩
      (by decide)⟩

end DumpByString
